import Mathlib

/-!
Verification of the in-memory user directory in
`src/examples/backend/main.py`.

The Python module is embedded shallowly: the module-level list `users_db`
becomes an explicit state value of type `List User` that is threaded through
each handler.  Handlers that mutate the list return the new state as the
second component of a pair; handlers that only read return the input state
unchanged, which is exactly what the Python bodies do (they never assign to
`users_db`).  Python arbitrary-precision integers become `Int`; the final
`float(...)` conversion in `calculate_user_score` is applied to a
nonnegative integer, so the score is modelled by that integer value.
-/

namespace Typemill

/-- The `User` pydantic model: `id`, `name`, `email`, and `is_active`
defaulting to `True`. -/
structure User where
  id : Int
  name : String
  email : String
  is_active : Bool := true
deriving DecidableEq

/-- The `UserCreate` request body model: `name` and `email`. -/
structure UserCreate where
  name : String
  email : String
deriving DecidableEq

/-- Model of `fastapi.HTTPException`, as raised by `get_user`. -/
structure HTTPException where
  status_code : Nat
  detail : String
deriving DecidableEq

/-- Seed record `User(id=1, name="John Doe", email="john@example.com")`. -/
def john : User := { id := 1, name := "John Doe", email := "john@example.com" }

/-- Seed record `User(id=2, name="Jane Smith", email="jane@example.com")`. -/
def jane : User := { id := 2, name := "Jane Smith", email := "jane@example.com" }

/-- The initial value of the module-level list `users_db`. -/
def users_db : List User := [john, jane]

/-- Helper `find_user_by_id`: linear scan returning the first user whose id
matches, or `None`. -/
def find_user_by_id (db : List User) (user_id : Int) : Option User :=
  match db with
  | [] => none
  | u :: rest => if u.id = user_id then some u else find_user_by_id rest user_id

/-- Handler `get_users`: returns the whole list; the state is unchanged. -/
def get_users (db : List User) : List User × List User :=
  (db, db)

/-- Handler `get_user`: looks the id up and raises
`HTTPException(status_code=404, detail="User not found")` on a miss; the
state is unchanged. -/
def get_user (db : List User) (user_id : Int) : Except HTTPException User × List User :=
  match find_user_by_id db user_id with
  | some u => (Except.ok u, db)
  | none => (Except.error { status_code := 404, detail := "User not found" }, db)

/-- Python `max(xs, default=dflt)` on a list of integers. -/
def max_default (xs : List Int) (dflt : Int) : Int :=
  match xs with
  | [] => dflt
  | x :: rest => rest.foldl max x

/-- Handler `create_user`: `new_id = max([u.id for u in users_db], default=0) + 1`,
builds the new `User` (with the defaulted `is_active=True`), appends it, and
returns it together with the new state. -/
def create_user (db : List User) (user_data : UserCreate) : User × List User :=
  let new_id := max_default (db.map (fun u => u.id)) 0 + 1
  let new_user : User := { id := new_id, name := user_data.name, email := user_data.email }
  (new_user, db ++ [new_user])

/-- Function `calculate_user_score`: `len(name)*10 + (5 if "@" in email else 0) +
(20 if is_active else 0)`.  Python's `"@" in user.email` is membership of
the single character `@` in the email's character sequence, embedded as
`user.email.data.contains '@'`.  The Python body ends with `float(...)`
applied to this nonnegative integer; the integer value is the model of the
result. -/
def calculate_user_score (user : User) : Int :=
  let base_score : Int := (user.name.length : Int) * 10
  let email_bonus : Int := if user.email.data.contains '@' then 5 else 0
  let active_bonus : Int := if user.is_active then 20 else 0
  base_score + email_bonus + active_bonus

/-- State-passing form of a `calculate_user_score` call: the body reads only
its argument and never touches `users_db`, so the state component is
returned unchanged. -/
def calculate_user_score_st (db : List User) (user : User) : Int × List User :=
  (calculate_user_score user, db)

/-- One API operation: `GET /users`, `GET /users/{id}`, or `POST /users`. -/
inductive Op where
  | opList : Op
  | opGet : Int → Op
  | opCreate : UserCreate → Op
deriving DecidableEq

/-- Effect of one operation on the directory state. -/
def apply_op (db : List User) : Op → List User
  | Op.opList => (get_users db).2
  | Op.opGet i => (get_user db i).2
  | Op.opCreate d => (create_user db d).2

/-- Run a sequence of operations from a given state. -/
def run_ops (db : List User) : List Op → List User
  | [] => db
  | op :: ops => run_ops (apply_op db op) ops

/-- The records created by a sequence of operations, in creation order. -/
def created_users (db : List User) : List Op → List User
  | [] => []
  | Op.opList :: ops => created_users (apply_op db Op.opList) ops
  | Op.opGet i :: ops => created_users (apply_op db (Op.opGet i)) ops
  | Op.opCreate d :: ops =>
    (create_user db d).1 :: created_users (apply_op db (Op.opCreate d)) ops

/-- Run a sequence of `create` calls from a given state. -/
def run_creates (db : List User) : List UserCreate → List User
  | [] => db
  | d :: ds => run_creates (create_user db d).2 ds

/-- The ids assigned by successive `create` calls, in order. -/
def run_new_ids (db : List User) : List UserCreate → List Int
  | [] => []
  | d :: ds => (create_user db d).1.id :: run_new_ids (create_user db d).2 ds

/-- The list `[1, 2, ..., n]` as integers: the ids present after the directory has
grown to `n` records from the seed numbering. -/
def seq_ids (n : Nat) : List Int :=
  (List.range n).map (fun i : Nat => (i : Int) + 1)

/-! ### Helper lemmas -/

lemma find_user_some {db : List User} {i : Int} {u : User}
    (h : find_user_by_id db i = some u) : u ∈ db ∧ u.id = i := by
  induction db with
  | nil => simp [find_user_by_id] at h
  | cons v rest ih =>
    rw [find_user_by_id] at h
    by_cases hv : v.id = i
    · rw [if_pos hv] at h
      cases h
      exact ⟨List.mem_cons_self _ _, hv⟩
    · rw [if_neg hv] at h
      obtain ⟨hm, hid⟩ := ih h
      exact ⟨List.mem_cons_of_mem _ hm, hid⟩

lemma find_user_none {db : List User} {i : Int} :
    find_user_by_id db i = none ↔ ∀ u ∈ db, u.id ≠ i := by
  induction db with
  | nil => simp [find_user_by_id]
  | cons v rest ih =>
    rw [find_user_by_id]
    by_cases hv : v.id = i
    · simp [if_pos hv, hv]
    · simp [if_neg hv, ih, hv]

lemma foldl_max_mem : ∀ (rest : List Int) (x : Int), rest.foldl max x ∈ x :: rest := by
  intro rest
  induction rest with
  | nil => intro x; simp
  | cons r rest ih =>
    intro x
    have h := ih (max x r)
    rw [List.foldl_cons]
    rcases List.mem_cons.mp h with h | h
    · rcases max_choice x r with hm | hm
      · rw [h, hm]; exact List.mem_cons_self _ _
      · rw [h, hm]; exact List.mem_cons_of_mem _ (List.mem_cons_self _ _)
    · exact List.mem_cons_of_mem _ (List.mem_cons_of_mem _ h)

lemma foldl_max_le : ∀ (rest : List Int) (x : Int), ∀ y ∈ x :: rest, y ≤ rest.foldl max x := by
  intro rest
  induction rest with
  | nil => intro x y hy; simp at hy; simp [hy]
  | cons r rest ih =>
    intro x y hy
    rw [List.foldl_cons]
    have hxr : max x r ≤ rest.foldl max (max x r) :=
      ih (max x r) (max x r) (List.mem_cons_self _ _)
    rcases List.mem_cons.mp hy with h | h
    · rw [h]; exact le_trans (le_max_left x r) hxr
    · rcases List.mem_cons.mp h with h | h
      · rw [h]; exact le_trans (le_max_right x r) hxr
      · exact ih (max x r) y (List.mem_cons_of_mem _ h)

lemma max_default_spec {xs : List Int} (h : xs ≠ []) :
    max_default xs 0 ∈ xs ∧ ∀ y ∈ xs, y ≤ max_default xs 0 := by
  cases xs with
  | nil => exact absurd rfl h
  | cons x rest =>
    rw [max_default]
    exact ⟨foldl_max_mem rest x, foldl_max_le rest x⟩

lemma string_length_eq_zero {s : String} : s.length = 0 ↔ s = "" := by
  constructor
  · intro h
    cases s with
    | mk data =>
      cases data with
      | nil => rfl
      | cons c cs => simp [String.length] at h
  · intro h
    rw [h]
    rfl

lemma create_user_eq (db : List User) (d : UserCreate) :
    create_user db d =
      ({ id := max_default (db.map (fun u => u.id)) 0 + 1, name := d.name,
         email := d.email, is_active := true },
       db ++ [{ id := max_default (db.map (fun u => u.id)) 0 + 1, name := d.name,
                email := d.email, is_active := true }]) := rfl

lemma create_snd (db : List User) (d : UserCreate) :
    (create_user db d).2 = db ++ [(create_user db d).1] := rfl

lemma get_user_state (db : List User) (i : Int) : (get_user db i).2 = db := by
  cases h : find_user_by_id db i <;> simp [get_user, h]

lemma seq_ids_succ (n : Nat) : seq_ids (n + 1) = seq_ids n ++ [(n : Int) + 1] := by
  simp [seq_ids, List.range_succ]

lemma seq_ids_ne_nil {n : Nat} (h : 0 < n) : seq_ids n ≠ [] := by
  simp only [seq_ids, ne_eq, List.map_eq_nil_iff, List.range_eq_nil]
  omega

lemma max_default_append {xs : List Int} (y d : Int) (h : xs ≠ []) :
    max_default (xs ++ [y]) d = max (max_default xs d) y := by
  cases xs with
  | nil => exact absurd rfl h
  | cons x rest =>
    simp only [List.cons_append, max_default]
    rw [List.foldl_append]
    rfl

lemma max_default_seq_ids : ∀ n : Nat, max_default (seq_ids n) 0 = (n : Int) := by
  intro n
  induction n with
  | zero => rfl
  | succ m ih =>
    cases m with
    | zero => rfl
    | succ k =>
      rw [seq_ids_succ, max_default_append _ _ (seq_ids_ne_nil (Nat.succ_pos k)), ih]
      have hle : ((k + 1 : Nat) : Int) ≤ ((k + 1 : Nat) : Int) + 1 := by omega
      rw [max_eq_right hle]
      push_cast
      ring

lemma create_step {db : List User} {n : Nat} (h : db.map (fun u => u.id) = seq_ids n)
    (d : UserCreate) :
    (create_user db d).1.id = (n : Int) + 1 ∧
    (create_user db d).2.map (fun u => u.id) = seq_ids (n + 1) := by
  constructor
  · show max_default (db.map (fun u => u.id)) 0 + 1 = (n : Int) + 1
    rw [h, max_default_seq_ids]
  · rw [create_user_eq]
    simp only [List.map_append, List.map_cons, List.map_nil]
    rw [h, max_default_seq_ids, seq_ids_succ]

lemma run_invariant : ∀ (ds : List UserCreate) (db : List User) (n : Nat),
    db.map (fun u => u.id) = seq_ids n →
    run_new_ids db ds = (List.range ds.length).map (fun i : Nat => (n : Int) + 1 + (i : Int)) ∧
    (run_creates db ds).map (fun u => u.id) = seq_ids (n + ds.length) := by
  intro ds
  induction ds with
  | nil =>
    intro db n h
    exact ⟨rfl, by simpa using h⟩
  | cons d ds ih =>
    intro db n h
    obtain ⟨hid, hdb⟩ := create_step h d
    obtain ⟨ih1, ih2⟩ := ih (create_user db d).2 (n + 1) hdb
    refine ⟨?_, ?_⟩
    · rw [run_new_ids, hid, ih1, List.length_cons, List.range_succ_eq_map, List.map_cons,
        List.map_map]
      refine List.cons_eq_cons.mpr ⟨by push_cast; ring, ?_⟩
      apply List.map_congr_left
      intro i _
      simp only [Function.comp_apply]
      push_cast
      ring
    · rw [run_creates, ih2, List.length_cons]
      congr 1
      omega

lemma run_ops_eq : ∀ (ops : List Op) (db : List User),
    run_ops db ops = db ++ created_users db ops := by
  intro ops
  induction ops with
  | nil => intro db; simp [run_ops, created_users]
  | cons op ops ih =>
    intro db
    cases op with
    | opList =>
      rw [run_ops, created_users]
      simp only [apply_op, get_users]
      exact ih db
    | opGet i =>
      rw [run_ops, created_users]
      simp only [apply_op, get_user_state]
      exact ih db
    | opCreate d =>
      rw [run_ops, created_users]
      simp only [apply_op]
      rw [ih, create_snd, List.append_assoc]
      rfl

/-! ### Claim theorems -/

/-- Claim C1: `create` assigns the new record the id one greater than the
maximum id among existing records, or `1` when the directory is empty. -/
theorem create_id_assignment (db : List User) (d : UserCreate) :
    (db = [] → (create_user db d).1.id = 1) ∧
    (db ≠ [] →
      ∃ m, m ∈ db.map (fun u => u.id) ∧ (∀ x ∈ db.map (fun u => u.id), x ≤ m) ∧
        (create_user db d).1.id = m + 1) := by
  constructor
  · intro h
    subst h
    rfl
  · intro h
    have hm : db.map (fun u => u.id) ≠ [] := by simp [h]
    obtain ⟨h1, h2⟩ := max_default_spec hm
    refine ⟨max_default (db.map (fun u => u.id)) 0, h1, h2, ?_⟩
    rfl

/-- Witness for C1: on the seed directory (maximum id 2) a create is
assigned id 3 = 2 + 1. -/
theorem create_id_assignment_witness :
    ∃ m, m ∈ users_db.map (fun u => u.id) ∧ (∀ x ∈ users_db.map (fun u => u.id), x ≤ m) ∧
      (create_user users_db { name := "Ann", email := "ann@example.com" }).1.id = m + 1 :=
  (create_id_assignment users_db { name := "Ann", email := "ann@example.com" }).2 (by decide)

/-- Claim C2: `get` returns the User whose id equals the argument when one
exists, and signals the 404 `HTTPException` iff no record has that id. -/
theorem get_user_found_iff (db : List User) (i : Int) :
    ((∃ u, u ∈ db ∧ u.id = i) →
      ∃ u, (get_user db i).1 = Except.ok u ∧ u ∈ db ∧ u.id = i) ∧
    ((get_user db i).1 = Except.error { status_code := 404, detail := "User not found" } ↔
      ¬ ∃ u, u ∈ db ∧ u.id = i) := by
  cases h : find_user_by_id db i with
  | some u =>
    obtain ⟨hm, hid⟩ := find_user_some h
    constructor
    · intro _
      exact ⟨u, by simp [get_user, h], hm, hid⟩
    · simp only [get_user, h]
      constructor
      · intro hcontra
        exact absurd hcontra (by simp)
      · intro hno
        exact absurd ⟨u, hm, hid⟩ hno
  | none =>
    have hn := find_user_none.mp h
    constructor
    · intro ⟨u, hm, hid⟩
      exact absurd hid (hn u hm)
    · simp only [get_user, h]
      constructor
      · intro _ ⟨u, hm, hid⟩
        exact hn u hm hid
      · intro _
        trivial

/-- Witness for C2: looking up id 1 in the seed directory returns John's
record. -/
theorem get_user_found_iff_witness :
    ∃ u, (get_user users_db 1).1 = Except.ok u ∧ u ∈ users_db ∧ u.id = 1 :=
  (get_user_found_iff users_db 1).1 ⟨john, by decide, by decide⟩

/-- Claim C3: the score is `len(name)*10 + (5 if "@" in email) +
(20 if is_active)`, and John's seed record scores 105. -/
theorem score_formula (u : User) :
    calculate_user_score u =
      (u.name.length : Int) * 10 + (if u.email.data.contains '@' then 5 else 0) +
        (if u.is_active then 20 else 0) ∧
    calculate_user_score john = 105 :=
  ⟨rfl, by decide⟩

/-- Claim C4: from the seed state, successive creates are assigned ids
3, 4, 5, ... (increasing by exactly one per call) and the directory ids
stay pairwise distinct. -/
theorem create_ids_increasing_distinct (ds : List UserCreate) :
    run_new_ids users_db ds = (List.range ds.length).map (fun i : Nat => 3 + (i : Int)) ∧
    ((run_creates users_db ds).map (fun u => u.id)).Nodup := by
  have h0 : users_db.map (fun u => u.id) = seq_ids 2 := by decide
  obtain ⟨h1, h2⟩ := run_invariant ds users_db 2 h0
  constructor
  · rw [h1]
    apply List.map_congr_left
    intro i _
    push_cast
    ring
  · rw [h2]
    simp only [seq_ids]
    apply List.Nodup.map
    · intro a b hab
      have hab' : (a : Int) + 1 = (b : Int) + 1 := hab
      omega
    · exact List.nodup_range _

/-- Claim C5: `create` builds the new User from the given name and email
with `is_active = true`, appends it at the end, and returns that record. -/
theorem create_constructs (db : List User) (d : UserCreate) :
    (create_user db d).1.name = d.name ∧ (create_user db d).1.email = d.email ∧
    (create_user db d).1.is_active = true ∧
    (create_user db d).2 = db ++ [(create_user db d).1] :=
  ⟨rfl, rfl, rfl, rfl⟩

/-- Claim C6: a create appends exactly one record and leaves the existing
prefix unchanged; the read handlers return the state unchanged, so create
is the only mutating operation. -/
theorem create_frame (db : List User) (d : UserCreate) :
    (create_user db d).2.length = db.length + 1 ∧
    (create_user db d).2.take db.length = db ∧
    (∀ i : Int, (get_user db i).2 = db) ∧ (get_users db).2 = db := by
  refine ⟨?_, ?_, fun i => get_user_state db i, rfl⟩
  · rw [create_user_eq]
    simp
  · rw [create_user_eq]
    simp

/-- Claim C7: after any sequence of operations from the seed state, the
list endpoint returns the seed records (ids 1 and 2) followed by every
created record in creation order. -/
theorem list_returns_all_created (ops : List Op) :
    (get_users (run_ops users_db ops)).1 = users_db ++ created_users users_db ops ∧
    users_db.map (fun u => u.id) = [1, 2] :=
  ⟨run_ops_eq ops users_db, rfl⟩

/-- Claim C8: the score of a record is deterministic, and a score call
returns the directory state unchanged. -/
theorem score_deterministic_pure (u : User) (db : List User) :
    (calculate_user_score_st db u).1 = (calculate_user_score_st db u).1 ∧
    (calculate_user_score_st db u).2 = db :=
  ⟨rfl, rfl⟩

/-- Claim C9: the read operations return the directory state unchanged,
including when the lookup misses. -/
theorem reads_preserve_state (db : List User) (i : Int) :
    (get_users db).2 = db ∧ (get_user db i).2 = db ∧
    (find_user_by_id db i = none → (get_user db i).2 = db) :=
  ⟨rfl, get_user_state db i, fun _ => get_user_state db i⟩

/-- Witness for C9: a missed lookup (id 99) leaves the seed state
unchanged. -/
theorem reads_preserve_state_witness : (get_user users_db 99).2 = users_db :=
  (reads_preserve_state users_db 99).2.2 (by decide)

/-- Claim C10: the score is a nonnegative integer value, and it is 0
exactly when the name is empty, the email has no `@`, and the user is
inactive. -/
theorem score_nonneg_min (u : User) :
    0 ≤ calculate_user_score u ∧
    (calculate_user_score u = 0 ↔
      u.name = "" ∧ u.email.data.contains '@' = false ∧ u.is_active = false) := by
  by_cases hc : '@' ∈ u.email.data <;> by_cases ha : u.is_active = true <;>
    simp [calculate_user_score, hc, ha, ← string_length_eq_zero] <;> omega

/-- Witness for C10: an inactive user with empty name and at-less email
attains score 0. -/
theorem score_nonneg_min_witness :
    calculate_user_score { id := 7, name := "", email := "nobody", is_active := false } = 0 :=
  (score_nonneg_min { id := 7, name := "", email := "nobody", is_active := false }).2.mpr
    ⟨rfl, by decide, rfl⟩

end Typemill
